import Mathlib

/-!
Verification of the CPU micro-GEMM kernel selection engine
(`torch/_inductor/codegen/cpp_micro_gemm.py`).

The embedding models the kernel-configuration registry, the registration
mechanism, the extra eligibility checks, and the selector/factory
`create_micro_gemm`, translated from the Python source.  Host-dependent
oracles (the probed vector ISA, the AVX512-FP16 and AMX-FP16 capability
probes, the ambient thread count) are inputs gathered in a `Host` record,
mirroring the external probes of the source.
-/

namespace CppGemm

/-- The torch dtypes that occur in this subsystem. -/
inductive DType where
  | float32
  | bfloat16
  | float16
  | int8
  | uint8
  | int32
  | float64
  deriving DecidableEq, Repr

/-- `torch.dtype.itemsize`: the size in bytes of one element. -/
def DType.itemsize : DType → Nat
  | .float32 => 4
  | .bfloat16 => 2
  | .float16 => 2
  | .int8 => 1
  | .uint8 => 1
  | .int32 => 4
  | .float64 => 8

/-- The concrete `VecISA` classes a configuration may require
(`config.vec_isa_cls` in the source). -/
inductive VecISACls where
  | vecAVX2
  | vecAVX512
  | vecAMX
  deriving DecidableEq, Repr

/-- Modelled from the spec: the Instruction-Set Capability Model
(`cpu_vec_isa.py`, not under src/) orders abstract capability levels
(baseline / wide-vector / matrix-extension); a CPU supporting a higher
level also supports the lower ones, and `noISA` means no vector ISA was
detected at all. -/
inductive VecISALevel where
  | noISA
  | avx2
  | avx512
  | amx
  deriving DecidableEq, Repr

/-- Rank of a capability level in the capability order of the spec. -/
def VecISALevel.rank : VecISALevel → Nat
  | .noISA => 0
  | .avx2 => 1
  | .avx512 => 2
  | .amx => 3

/-- Rank of a required ISA class in the same order. -/
def VecISACls.rank : VecISACls → Nat
  | .vecAVX2 => 1
  | .vecAVX512 => 2
  | .vecAMX => 3

/-- Modelled from the spec: the capability check used for filtering
(`issubclass(vec_isa.__class__, config.vec_isa_cls)` in the source, over
the class hierarchy of `cpu_vec_isa.py` which is not under src/): the
required ISA must be at most as capable as the available one. -/
def isaSatisfied (avail : VecISALevel) (req : VecISACls) : Bool :=
  req.rank ≤ avail.rank

/-- Register blocking shape (`GemmBlocking` from `cpp_utils.py`). -/
structure GemmBlocking where
  block_m : Nat
  block_n : Nat
  block_k : Nat
  deriving DecidableEq, Repr

/-- The extra eligibility predicates that occur in the registry: the
source stores them as function values; here they are named and
interpreted by `evalExtraCheck`. -/
inductive ExtraCheck where
  | fp16Extra
  | amxExtra
  | brgemmExtra
  deriving DecidableEq, Repr

/-- `CppMicroGemmConfig` from the source. -/
structure CppMicroGemmConfig where
  input_dtype : DType
  input2_dtype : DType
  output_dtype : DType
  compute_dtype : DType
  vec_isa_cls : VecISACls
  register_blocking : GemmBlocking
  extra_check : Option ExtraCheck
  deriving DecidableEq, Repr

/-- Host-dependent external oracles consulted by the selector:
the probed vector ISA (`pick_vec_isa`), the AVX512-FP16 probe
(`torch._C._cpu._is_avx512_fp16_supported`), the AMX-FP16 probe
(`torch.cpu._is_amx_fp16_supported`) and the ambient parallelism
setting (`parallel_num_threads`). -/
structure Host where
  vec_isa : VecISALevel
  avx512_fp16_supported : Bool
  amx_fp16_supported : Bool
  parallel_num_threads : Nat
  deriving DecidableEq, Repr

/-- `check_fp16_extra` from the source:
AVX512-FP16 supported, `m <= 4` and `n % 32 == 0`. -/
def check_fp16_extra (host : Host) (_config : CppMicroGemmConfig)
    (m n _k : Nat) (_alpha : Int) (_num_threads : Nat) : Bool :=
  host.avx512_fp16_supported && decide (m ≤ 4) && decide (n % 32 = 0)

/-- `check_amx_extra` from the source: `k` must be divisible by the VNNI
granularity (4 for uint8 input, 2 otherwise) and `alpha == 1`. -/
def check_amx_extra (config : CppMicroGemmConfig)
    (_m _n k : Nat) (alpha : Int) (_num_threads : Nat) : Bool :=
  let vnni_size : Nat := if config.input_dtype = .uint8 then 4 else 2
  decide (k % vnni_size = 0) && decide (alpha = 1)

/-- `check_brgemm_extra` from the source: brgemm is used for half input
when AMX-FP16 is supported, `k` even and `alpha == 1`.  The source first
asserts `config.input_dtype == torch.half and config.output_dtype ==
torch.float`; the sole registered brgemm configuration satisfies this
(established by `check_brgemm_extra_assert_holds` below), so the assert
is modelled as a guard. -/
def check_brgemm_extra (host : Host) (config : CppMicroGemmConfig)
    (_m _n k : Nat) (alpha : Int) (_num_threads : Nat) : Bool :=
  if config.input_dtype = .float16 ∧ config.output_dtype = .float32 then
    host.amx_fp16_supported && decide (k % 2 = 0) && decide (alpha = 1)
  else
    false

/-- Interpret a stored extra check on the request. -/
def evalExtraCheck (host : Host) (ec : ExtraCheck) (config : CppMicroGemmConfig)
    (m n k : Nat) (alpha : Int) (num_threads : Nat) : Bool :=
  match ec with
  | .fp16Extra => check_fp16_extra host config m n k alpha num_threads
  | .amxExtra => check_amx_extra config m n k alpha num_threads
  | .brgemmExtra => check_brgemm_extra host config m n k alpha num_threads

/-- The concrete micro-GEMM kernel variant classes. -/
inductive GemmVariant where
  | ref
  | fp32Vec
  | fp16
  | amx
  | brgemm
  deriving DecidableEq, Repr

/-- The registry type: `micro_gemm_configs` maps variant classes to
their configuration lists, in insertion order. -/
abbrev Registry := List (GemmVariant × List CppMicroGemmConfig)

/-- `register_micro_gemm` from the source: asserts the class is not
already registered and that at least one configuration is supplied,
then appends the association. -/
def register_micro_gemm (registry : Registry) (cls : GemmVariant)
    (configs : List CppMicroGemmConfig) : Except String Registry :=
  if ((registry.map Prod.fst).contains cls) then
    .error "Duplicate micro_gemm registration"
  else if configs.length = 0 then
    .error "No micro_gemm configs provided"
  else
    .ok (registry ++ [(cls, configs)])

/-- `generate_gemm_config` from the source: cross-multiplies blockings
against one dtype combination, defaulting `output_dtype = input_dtype`,
`compute_dtype = output_dtype`, `input2_dtype = input_dtype`. -/
def generate_gemm_config (vec_isa_cls : VecISACls)
    (register_blockings : List (Nat × Nat × Nat))
    (input_dtype : DType)
    (input2_dtype : Option DType := none)
    (output_dtype : Option DType := none)
    (compute_dtype : Option DType := none)
    (extra_check : Option ExtraCheck := none) : List CppMicroGemmConfig :=
  let output_dtype := output_dtype.getD input_dtype
  let compute_dtype := compute_dtype.getD output_dtype
  let input2_dtype := input2_dtype.getD input_dtype
  register_blockings.map fun b =>
    ⟨input_dtype, input2_dtype, output_dtype, compute_dtype, vec_isa_cls,
      ⟨b.1, b.2.1, b.2.2⟩, extra_check⟩

/-- The configurations registered for `CppMicroGemmFP32Vec`. -/
def fp32VecConfigs : List CppMicroGemmConfig :=
  generate_gemm_config .vecAVX512 [(8, 48, 1), (8, 32, 1), (16, 16, 1)]
    .float32 ++
  generate_gemm_config .vecAVX512 [(8, 48, 1), (8, 32, 1), (16, 16, 1)]
    .bfloat16 none (some .float32) ++
  generate_gemm_config .vecAVX512 [(8, 48, 1), (8, 32, 1), (16, 16, 1)]
    .float16 none (some .float32) ++
  generate_gemm_config .vecAVX512 [(8, 48, 1), (8, 32, 1), (16, 16, 1)]
    .bfloat16 (some .int8) (some .float32) (some .float32) ++
  generate_gemm_config .vecAVX2 [(4, 24, 1), (4, 16, 1), (8, 8, 1)]
    .float32 ++
  generate_gemm_config .vecAVX2 [(4, 24, 1), (4, 16, 1), (8, 8, 1)]
    .bfloat16 none (some .float32) ++
  generate_gemm_config .vecAVX2 [(4, 24, 1), (4, 16, 1), (8, 8, 1)]
    .float16 none (some .float32) ++
  generate_gemm_config .vecAVX2 [(4, 24, 1), (4, 16, 1), (8, 8, 1)]
    .bfloat16 (some .int8) (some .float32) (some .float32)

/-- The configurations registered for `CppFP16MicroGemm`. -/
def fp16Configs : List CppMicroGemmConfig :=
  generate_gemm_config .vecAVX512 [(8, 64, 1), (8, 32, 1)]
    .bfloat16 (some .int8) (some .float16) (some .float16)
    (some .fp16Extra)

/-- The configurations registered for `CppMicroGemmAMX`. -/
def amxConfigs : List CppMicroGemmConfig :=
  generate_gemm_config .vecAMX [(32, 32, 32), (48, 16, 32), (16, 48, 32)]
    .bfloat16 (some .int8) (some .float32) (some .float32)
    (some .amxExtra) ++
  generate_gemm_config .vecAMX [(32, 32, 32), (48, 16, 32), (16, 48, 32)]
    .bfloat16 none (some .float32) none (some .amxExtra) ++
  generate_gemm_config .vecAMX [(32, 32, 64), (48, 16, 64)]
    .uint8 (some .int8) (some .int32) (some .int32) (some .amxExtra)

/-- The configurations registered for `CppMicroBrgemm`. -/
def brgemmConfigs : List CppMicroGemmConfig :=
  generate_gemm_config .vecAMX [(32, 32, 32), (48, 16, 32), (16, 48, 32)]
    .float16 none (some .float32) none (some .brgemmExtra)

/-- The module-load registration sequence, in source order. -/
def moduleLoadRegistry : Except String Registry := do
  let r ← register_micro_gemm [] .fp32Vec fp32VecConfigs
  let r ← register_micro_gemm r .fp16 fp16Configs
  let r ← register_micro_gemm r .amx amxConfigs
  register_micro_gemm r .brgemm brgemmConfigs

/-- The populated global registry `micro_gemm_configs`. -/
def micro_gemm_configs : Registry :=
  [(.fp32Vec, fp32VecConfigs), (.fp16, fp16Configs),
   (.amx, amxConfigs), (.brgemm, brgemmConfigs)]

/-- The ranking tuple `(isa_score, dividable_score, occupancy_score,
register_bytes)`. -/
abbrev Score := Nat × Nat × Nat × Nat

/-- Strict lexicographic order on ranking tuples, as Python compares
4-tuples of integers. -/
def scoreLt (a b : Score) : Prop :=
  a.1 < b.1 ∨ (a.1 = b.1 ∧ (a.2.1 < b.2.1 ∨ (a.2.1 = b.2.1 ∧
    (a.2.2.1 < b.2.2.1 ∨ (a.2.2.1 = b.2.2.1 ∧ a.2.2.2 < b.2.2.2)))))

instance (a b : Score) : Decidable (scoreLt a b) := by
  unfold scoreLt; exact inferInstance

/-- The score computed for a candidate configuration in
`create_micro_gemm` (source lines 1140-1166). -/
def scoreConfig (m n k num_threads : Nat) (config : CppMicroGemmConfig) : Score :=
  let block_m := config.register_blocking.block_m
  let block_n := config.register_blocking.block_n
  let block_k := config.register_blocking.block_k
  let isa_score : Nat := if config.vec_isa_cls = .vecAMX then 1 else 0
  let dividable_score : Nat :=
    (if m % block_m = 0 then 1 else 0) +
    (if n % block_n = 0 then 1 else 0) +
    (if k % block_k = 0 then 1 else 0)
  let n_blocks := (n + block_n - 1) / block_n
  let total_mxn_blocks := n_blocks * ((m + block_m - 1) / block_m)
  let occupancy_score : Nat :=
    (if n_blocks ≥ num_threads then 1 else 0) +
    (if total_mxn_blocks ≥ num_threads then 1 else 0)
  let register_bytes :=
    block_m * block_n * config.compute_dtype.itemsize +
    (block_m * block_k + block_k * block_n) * config.input_dtype.itemsize
  (isa_score, dividable_score, occupancy_score, register_bytes)

/-- The per-configuration filter of `create_micro_gemm` (source lines
1114-1139): ISA satisfied, dtype fields exactly matching, extra check
passing, and not an AMX int8-weight configuration with `m < block_m`. -/
def configMatches (host : Host) (m n k : Nat)
    (input_dtype input2_dtype output_dtype compute_dtype : DType)
    (alpha : Int) (num_threads : Nat) (config : CppMicroGemmConfig) : Bool :=
  isaSatisfied host.vec_isa config.vec_isa_cls &&
  decide (config.input_dtype = input_dtype) &&
  decide (config.compute_dtype = compute_dtype) &&
  decide (config.input2_dtype = input2_dtype) &&
  decide (config.output_dtype = output_dtype) &&
  (match config.extra_check with
   | some ec => evalExtraCheck host ec config m n k alpha num_threads
   | none => true) &&
  !(decide (config.vec_isa_cls = .vecAMX) &&
    decide (m < config.register_blocking.block_m) &&
    decide (input_dtype = .bfloat16) && decide (input2_dtype = .int8))

/-- An element of `matched_configs`: the score together with the owning
variant class and the configuration. -/
structure MatchedConfig where
  score : Score
  cls : GemmVariant
  config : CppMicroGemmConfig
  deriving DecidableEq, Repr

/-- The `matched_configs` list accumulated by `create_micro_gemm` over a
registry, in registration/iteration order. -/
def matched_configs_in (registry : Registry) (host : Host) (m n k : Nat)
    (input_dtype input2_dtype output_dtype compute_dtype : DType)
    (alpha : Int) (num_threads : Nat) : List MatchedConfig :=
  match registry with
  | [] => []
  | (cls, configs) :: rest =>
    (configs.filter (configMatches host m n k input_dtype input2_dtype
        output_dtype compute_dtype alpha num_threads)).map
      (fun config =>
        ⟨scoreConfig m n k num_threads config, cls, config⟩) ++
    matched_configs_in rest host m n k input_dtype input2_dtype
      output_dtype compute_dtype alpha num_threads

/-- Python `max` with a key: keeps the current best and replaces it only
when a later element compares strictly greater, so the first-encountered
maximum wins. -/
def pyMaxBy (f : MatchedConfig → Score) (best : MatchedConfig) :
    List MatchedConfig → MatchedConfig
  | [] => best
  | x :: xs => pyMaxBy f (if scoreLt (f best) (f x) then x else best) xs

/-- The `(cls, config)` winner chosen by
`max(matched_configs, key=lambda x: x[0])`, or `none` when no candidate
survives filtering. -/
def selected_config (host : Host) (m n k : Nat)
    (input_dtype input2_dtype output_dtype compute_dtype : DType)
    (alpha : Int) (num_threads : Nat) : Option MatchedConfig :=
  match matched_configs_in micro_gemm_configs host m n k input_dtype
      input2_dtype output_dtype compute_dtype alpha num_threads with
  | [] => none
  | x :: xs => some (pyMaxBy MatchedConfig.score x xs)

/-- The state of a constructed `CppMicroGemm` instance: its class plus
the constructor arguments stored by `CppMicroGemm.__init__`. -/
structure MicroGemmInstance where
  variant : GemmVariant
  name : String
  input_dtype : DType
  input2_dtype : DType
  output_dtype : DType
  compute_dtype : DType
  register_blocking : GemmBlocking
  alpha : Int
  deriving DecidableEq, Repr

/-- `create_from_config` from the source: instantiate the winning class
with the configuration dtypes and blocking and the requested alpha. -/
def create_from_config (name : String) (alpha : Int) (cls : GemmVariant)
    (config : CppMicroGemmConfig) : MicroGemmInstance :=
  ⟨cls, name, config.input_dtype, config.input2_dtype, config.output_dtype,
    config.compute_dtype, config.register_blocking, alpha⟩

/-- `CppMicroGemmRef.__init__`: the reference variant is built on the
requested dtypes with blocking `(1, 1, 1)`. -/
def refInstance (name : String) (input_dtype input2_dtype output_dtype
    compute_dtype : DType) (alpha : Int) : MicroGemmInstance :=
  ⟨.ref, name, input_dtype, input2_dtype, output_dtype, compute_dtype,
    ⟨1, 1, 1⟩, alpha⟩

/-- Output/compute dtype resolution of `create_micro_gemm` (source lines
1091-1108): default from the input dtype, then the small-m bfloat16/int8
FP16 upgrade.  `n` is a concrete number here, so the conjunct
`not has_free_symbols((n,))` of the source always holds. -/
def resolved_dtypes (host : Host) (m n : Nat)
    (input_dtype input2_dtype : DType)
    (output_dtype0 compute_dtype0 : Option DType) : DType × DType :=
  let output_dtype := output_dtype0.getD input_dtype
  let compute_dtype := compute_dtype0.getD output_dtype
  if m ≤ 4 ∧ input_dtype = .bfloat16 ∧ input2_dtype = .int8 ∧
      host.avx512_fp16_supported = true ∧ n % 32 = 0 then
    (.float16, .float16)
  else
    (output_dtype, compute_dtype)

/-- Thread-count resolution of `create_micro_gemm`: a negative request
means the ambient `parallel_num_threads()` value. -/
def resolved_num_threads (host : Host) (num_threads0 : Int) : Nat :=
  if num_threads0 < 0 then host.parallel_num_threads else num_threads0.toNat

/-- `create_micro_gemm` from the source: resolve dtypes and thread
count, filter and rank the registry, and return the winner, the
reference fallback, or `none`. -/
def create_micro_gemm (host : Host) (name : String) (m n k : Nat)
    (input_dtype input2_dtype : DType)
    (output_dtype0 compute_dtype0 : Option DType)
    (alpha : Int) (num_threads0 : Int) (use_ref : Bool) :
    Option MicroGemmInstance :=
  let od := (resolved_dtypes host m n input_dtype input2_dtype
    output_dtype0 compute_dtype0).1
  let cd := (resolved_dtypes host m n input_dtype input2_dtype
    output_dtype0 compute_dtype0).2
  let num_threads := resolved_num_threads host num_threads0
  match selected_config host m n k input_dtype input2_dtype od cd alpha
      num_threads with
  | some w => some (create_from_config name alpha w.cls w.config)
  | none =>
    if use_ref then
      some (refInstance name input_dtype input2_dtype od cd alpha)
    else
      none

/-- Follows the claim wording for the ranking of surviving candidates:
`isa_score` is 1 iff the required ISA is the AMX family, else 0;
`dividable_score` counts how many of the three shape divisibility
conditions hold; `occupancy_score` counts whether the N-block count and
the total M-by-N block count each reach the thread count;
`register_bytes` is the register footprint estimate.  Stated for
refinement comparison with `scoreConfig`, which is translated from the
source. -/
def claim_ranking_score (m n k thread_count : Nat)
    (config : CppMicroGemmConfig) : Score :=
  let block_m := config.register_blocking.block_m
  let block_n := config.register_blocking.block_n
  let block_k := config.register_blocking.block_k
  let isa_score : Nat := if config.vec_isa_cls = .vecAMX then 1 else 0
  let dividable_score : Nat :=
    (if m % block_m = 0 then 1 else 0) +
    (if n % block_n = 0 then 1 else 0) +
    (if k % block_k = 0 then 1 else 0)
  let n_blocks := (n + block_n - 1) / block_n
  let total_mxn_blocks := n_blocks * ((m + block_m - 1) / block_m)
  let occupancy_score : Nat :=
    (if n_blocks ≥ thread_count then 1 else 0) +
    (if total_mxn_blocks ≥ thread_count then 1 else 0)
  let register_bytes :=
    block_m * block_n * config.compute_dtype.itemsize +
    (block_m * block_k + block_k * block_n) * config.input_dtype.itemsize
  (isa_score, dividable_score, occupancy_score, register_bytes)

/-- The assertion prelude of `CppMicroGemmAMX.codegen_define` (source
lines 942-949): `block_m` and `block_n` must be multiples of 16, and
`block_k` must be 64 for uint8 input and 32 otherwise; a violating
blocking fails an assertion instead of generating code. -/
def amx_codegen_define_asserts (input_dtype : DType) (rb : GemmBlocking) :
    Except String Unit :=
  if rb.block_m % 16 = 0 then
    if rb.block_n % 16 = 0 then
      if input_dtype = .uint8 then
        if rb.block_k = 64 then
          .ok ()
        else
          .error "Only support block_k = 64 for AMX INT8"
      else
        if rb.block_k = 32 then
          .ok ()
        else
          .error "Only support block_k = 32 for AMX Bfloat16 or Float16"
    else
      .error "Only support block_n divisible by 16 for AMX"
  else
    .error "Only support block_m divisible by 16 for AMX"

/-- The data fields of the template-option dictionary built by
`CppMicroGemm.get_common_options` (the C++ type-name strings, produced
by `DTYPE_TO_CPP` which lives outside this subsystem, are omitted). -/
structure CommonOptions where
  kernel_name : String
  input_dtype : DType
  input2_dtype : DType
  output_dtype : DType
  compute_dtype : DType
  alpha : Int
  int8_gemm : Bool
  vnni_size : Nat
  deriving DecidableEq, Repr

/-- The option record built once the assertions pass. -/
def commonOptions (inst : MicroGemmInstance) : CommonOptions :=
  ⟨inst.name, inst.input_dtype, inst.input2_dtype, inst.output_dtype,
    inst.compute_dtype, inst.alpha, decide (inst.input_dtype = .uint8),
    if inst.input_dtype = .uint8 then 4 else 2⟩

/-- `CppMicroGemm.get_common_options` from the source: for uint8 input
it asserts `compute_dtype == int32`, `output_dtype == int32` and
`input2_dtype == int8` before rendering the options. -/
def get_common_options (inst : MicroGemmInstance) : Except String CommonOptions :=
  if inst.input_dtype = .uint8 then
    if inst.compute_dtype = .int32 then
      if inst.output_dtype = .int32 then
        if inst.input2_dtype = .int8 then
          .ok (commonOptions inst)
        else
          .error "uint8 input requires int8 input2_dtype"
      else
        .error "uint8 input requires int32 output_dtype"
    else
      .error "uint8 input requires int32 compute_dtype"
  else
    .ok (commonOptions inst)

/-- Module load succeeds and produces exactly `micro_gemm_configs`. -/
theorem moduleLoadRegistry_ok : moduleLoadRegistry = .ok micro_gemm_configs := by
  rfl

/-- The assertion inside `check_brgemm_extra` holds for every registered
brgemm configuration, so modelling it as a guard loses nothing. -/
theorem check_brgemm_extra_assert_holds :
    ∀ c ∈ brgemmConfigs, c.input_dtype = .float16 ∧ c.output_dtype = .float32 := by
  decide

/-- Every configuration registered for the AMX class requires the AMX
ISA. -/
theorem amxConfigs_vec_isa : ∀ c ∈ amxConfigs, c.vec_isa_cls = .vecAMX := by
  decide

/-- Every configuration registered for the AMX class satisfies the
blocking invariants asserted by `codegen_define`. -/
theorem amxConfigs_blocking :
    ∀ c ∈ amxConfigs,
      c.register_blocking.block_m % 16 = 0 ∧
      c.register_blocking.block_n % 16 = 0 ∧
      c.register_blocking.block_k = (if c.input_dtype = .uint8 then 64 else 32) := by
  decide

/-- The dtype fields and extra check of every registered brgemm
configuration. -/
theorem brgemmConfigs_fields :
    ∀ c ∈ brgemmConfigs,
      c.input_dtype = .float16 ∧ c.input2_dtype = .float16 ∧
      c.output_dtype = .float32 ∧ c.compute_dtype = .float32 ∧
      c.extra_check = some .brgemmExtra := by
  decide

theorem scoreLt_irrefl (a : Score) : ¬ scoreLt a a := by
  obtain ⟨a1, a2, a3, a4⟩ := a
  unfold scoreLt
  omega

theorem scoreLt_trans {a b c : Score} (hab : scoreLt a b) (hbc : scoreLt b c) :
    scoreLt a c := by
  obtain ⟨a1, a2, a3, a4⟩ := a
  obtain ⟨b1, b2, b3, b4⟩ := b
  obtain ⟨c1, c2, c3, c4⟩ := c
  unfold scoreLt at hab hbc ⊢
  omega

/-- From `a < b` and `b ≤ c` (encoded as `¬ c < b`), conclude `a < c`. -/
theorem scoreLt_of_lt_of_not_lt {a b c : Score} (hab : scoreLt a b)
    (hcb : ¬ scoreLt c b) : scoreLt a c := by
  obtain ⟨a1, a2, a3, a4⟩ := a
  obtain ⟨b1, b2, b3, b4⟩ := b
  obtain ⟨c1, c2, c3, c4⟩ := c
  unfold scoreLt at hab hcb ⊢
  omega

/-- From `b ≤ a` (encoded as `¬ a < b`) and `a < c`, conclude `b < c`. -/
theorem scoreLt_of_not_lt_of_lt {a b c : Score} (hab : ¬ scoreLt a b)
    (hac : scoreLt a c) : scoreLt b c := by
  obtain ⟨a1, a2, a3, a4⟩ := a
  obtain ⟨b1, b2, b3, b4⟩ := b
  obtain ⟨c1, c2, c3, c4⟩ := c
  unfold scoreLt at hab hac ⊢
  omega

/-- The result of Python `max` is an element of the scanned list. -/
theorem pyMaxBy_mem (f : MatchedConfig → Score) (b : MatchedConfig)
    (l : List MatchedConfig) : pyMaxBy f b l ∈ b :: l := by
  induction l generalizing b with
  | nil => simp [pyMaxBy]
  | cons x xs ih =>
    by_cases hbx : scoreLt (f b) (f x)
    · simp only [pyMaxBy, if_pos hbx]
      exact List.mem_cons_of_mem b (ih x)
    · simp only [pyMaxBy, if_neg hbx]
      rcases List.mem_cons.mp (ih b) with h | h
      · simp [h]
      · simp [h]

/-- No scanned element scores strictly above the result of Python
`max`: the result is a maximum. -/
theorem pyMaxBy_not_lt (f : MatchedConfig → Score) (b : MatchedConfig)
    (l : List MatchedConfig) :
    ∀ c ∈ b :: l, ¬ scoreLt (f (pyMaxBy f b l)) (f c) := by
  induction l generalizing b with
  | nil =>
    intro c hc
    rcases List.mem_cons.mp hc with h | h
    · subst h; simp only [pyMaxBy]; exact scoreLt_irrefl _
    · cases h
  | cons x xs ih =>
    intro c hc
    by_cases hbx : scoreLt (f b) (f x)
    · simp only [pyMaxBy, if_pos hbx]
      rcases List.mem_cons.mp hc with h | h
      · rw [h]
        intro hlt
        exact ih x x (List.mem_cons_self x xs) (scoreLt_trans hlt hbx)
      · exact ih x c h
    · simp only [pyMaxBy, if_neg hbx]
      rcases List.mem_cons.mp hc with h | h
      · rw [h]
        exact ih b b (List.mem_cons_self b xs)
      · rcases List.mem_cons.mp h with h2 | h2
        · rw [h2]
          intro hlt
          exact ih b b (List.mem_cons_self b xs)
            (scoreLt_of_lt_of_not_lt hlt hbx)
        · exact ih b c (List.mem_cons_of_mem b h2)

/-- Python `max` keeps the FIRST-encountered maximum: the scanned list
splits around the result so that every earlier element scores strictly
below it. -/
theorem pyMaxBy_first_max (f : MatchedConfig → Score) (b : MatchedConfig)
    (l : List MatchedConfig) :
    ∃ pre post, b :: l = pre ++ pyMaxBy f b l :: post ∧
      ∀ c ∈ pre, scoreLt (f c) (f (pyMaxBy f b l)) := by
  induction l generalizing b with
  | nil => exact ⟨[], [], rfl, by simp⟩
  | cons x xs ih =>
    by_cases hbx : scoreLt (f b) (f x)
    · obtain ⟨pre, post, heq, hpre⟩ := ih x
      refine ⟨b :: pre, post, ?_, ?_⟩
      · simp only [pyMaxBy, if_pos hbx]
        simpa using congrArg (List.cons b) heq
      · intro c hc
        simp only [pyMaxBy, if_pos hbx]
        rcases List.mem_cons.mp hc with h | h
        · subst h
          exact scoreLt_of_lt_of_not_lt hbx
            (pyMaxBy_not_lt f x xs x (List.mem_cons_self x xs))
        · exact hpre c h
    · obtain ⟨pre, post, heq, hpre⟩ := ih b
      cases pre with
      | nil =>
        simp only [List.nil_append] at heq
        have hb := (List.cons_eq_cons.mp heq).1
        refine ⟨[], x :: xs, ?_, by simp⟩
        simp only [pyMaxBy, if_neg hbx, List.nil_append]
        rw [← hb]
      | cons p pre2 =>
        simp only [List.cons_append] at heq
        obtain ⟨hpb, hxs⟩ := List.cons_eq_cons.mp heq
        subst hpb
        refine ⟨b :: x :: pre2, post, ?_, ?_⟩
        · simp only [pyMaxBy, if_neg hbx, List.cons_append]
          conv_lhs => rw [hxs]
        · intro c hc
          simp only [pyMaxBy, if_neg hbx]
          have hbw : scoreLt (f b) (f (pyMaxBy f b xs)) :=
            hpre b (List.mem_cons_self b pre2)
          rcases List.mem_cons.mp hc with h | h
          · subst h; exact hbw
          · rcases List.mem_cons.mp h with h2 | h2
            · subst h2
              exact scoreLt_of_not_lt_of_lt hbx hbw
            · exact hpre c (List.mem_cons_of_mem b h2)

/-- Every element of `matched_configs` comes from a registered
configuration list of its class, passed the filter, and carries the
score computed for its configuration. -/
theorem matched_configs_in_sound {registry : Registry} {host : Host}
    {m n k : Nat} {idt i2dt odt cdt : DType} {alpha : Int} {nt : Nat}
    {c : MatchedConfig}
    (h : c ∈ matched_configs_in registry host m n k idt i2dt odt cdt alpha nt) :
    ∃ configs, (c.cls, configs) ∈ registry ∧ c.config ∈ configs ∧
      configMatches host m n k idt i2dt odt cdt alpha nt c.config = true ∧
      c.score = scoreConfig m n k nt c.config := by
  induction registry with
  | nil => cases h
  | cons p rest ih =>
    obtain ⟨cls, configs⟩ := p
    simp only [matched_configs_in, List.mem_append] at h
    rcases h with h | h
    · obtain ⟨config, hconfig, hc⟩ := List.mem_map.mp h
      obtain ⟨hmem, hmatch⟩ := List.mem_filter.mp hconfig
      refine ⟨configs, ?_, ?_, ?_, ?_⟩
      · rw [← hc]; exact List.mem_cons_self _ _
      · rw [← hc]; exact hmem
      · rw [← hc]; exact hmatch
      · rw [← hc]
    · obtain ⟨configs2, hmem, rest2⟩ := ih h
      exact ⟨configs2, List.mem_cons_of_mem _ hmem, rest2⟩

/-- Unpack a successful `configMatches` into its conjuncts. -/
theorem configMatches_spec {host : Host} {m n k : Nat}
    {idt i2dt odt cdt : DType} {alpha : Int} {nt : Nat}
    {config : CppMicroGemmConfig}
    (h : configMatches host m n k idt i2dt odt cdt alpha nt config = true) :
    isaSatisfied host.vec_isa config.vec_isa_cls = true ∧
    config.input_dtype = idt ∧ config.compute_dtype = cdt ∧
    config.input2_dtype = i2dt ∧ config.output_dtype = odt ∧
    (∀ ec, config.extra_check = some ec →
      evalExtraCheck host ec config m n k alpha nt = true) ∧
    ¬(config.vec_isa_cls = .vecAMX ∧ m < config.register_blocking.block_m ∧
      idt = .bfloat16 ∧ i2dt = .int8) := by
  unfold configMatches at h
  cases hec : config.extra_check with
  | none =>
    rw [hec] at h
    simp only [Bool.and_eq_true, Bool.not_eq_true', decide_eq_true_eq] at h
    obtain ⟨⟨⟨⟨⟨⟨hisa, hin⟩, hcomp⟩, hin2⟩, hout⟩, -⟩, hskip⟩ := h
    refine ⟨hisa, hin, hcomp, hin2, hout, ?_, ?_⟩
    · intro ec hec2
      exact Option.noConfusion hec2
    · intro ⟨h1, h2, h3, h4⟩
      simp [h1, h2, h3, h4] at hskip
  | some ec0 =>
    rw [hec] at h
    simp only [Bool.and_eq_true, Bool.not_eq_true', decide_eq_true_eq] at h
    obtain ⟨⟨⟨⟨⟨⟨hisa, hin⟩, hcomp⟩, hin2⟩, hout⟩, hextra⟩, hskip⟩ := h
    refine ⟨hisa, hin, hcomp, hin2, hout, ?_, ?_⟩
    · intro ec hec2
      injection hec2 with h3
      rw [← h3]
      exact hextra
    · intro ⟨h1, h2, h3, h4⟩
      simp [h1, h2, h3, h4] at hskip

/-- A successful selection yields an element of `matched_configs` that
no candidate beats, and that strictly beats every candidate listed
before it. -/
theorem selected_config_spec {host : Host} {m n k : Nat}
    {idt i2dt odt cdt : DType} {alpha : Int} {nt : Nat} {w : MatchedConfig}
    (h : selected_config host m n k idt i2dt odt cdt alpha nt = some w) :
    w ∈ matched_configs_in micro_gemm_configs host m n k idt i2dt odt cdt alpha nt ∧
    (∀ c ∈ matched_configs_in micro_gemm_configs host m n k idt i2dt odt cdt alpha nt,
      ¬ scoreLt w.score c.score) ∧
    ∃ pre post,
      matched_configs_in micro_gemm_configs host m n k idt i2dt odt cdt alpha nt =
        pre ++ w :: post ∧
      ∀ c ∈ pre, scoreLt c.score w.score := by
  unfold selected_config at h
  cases hm : matched_configs_in micro_gemm_configs host m n k idt i2dt odt cdt
      alpha nt with
  | nil => rw [hm] at h; cases h
  | cons x xs =>
    rw [hm] at h
    have hw : pyMaxBy MatchedConfig.score x xs = w := by
      injection h
    constructor
    · rw [← hw]; exact pyMaxBy_mem MatchedConfig.score x xs
    constructor
    · intro c hc
      rw [← hw]
      exact pyMaxBy_not_lt MatchedConfig.score x xs c hc
    · obtain ⟨pre, post, heq, hpre⟩ := pyMaxBy_first_max MatchedConfig.score x xs
      rw [hw] at heq hpre
      exact ⟨pre, post, heq, hpre⟩

/-- In the populated registry, the `amx` class is associated exactly
with `amxConfigs`. -/
theorem amx_assoc {configs : List CppMicroGemmConfig}
    (h : (GemmVariant.amx, configs) ∈ micro_gemm_configs) :
    configs = amxConfigs := by
  simp only [micro_gemm_configs, List.mem_cons, Prod.mk.injEq,
    List.not_mem_nil, or_false] at h
  rcases h with ⟨h1, _⟩ | ⟨h1, _⟩ | ⟨_, h2⟩ | ⟨h1, _⟩
  · cases h1
  · cases h1
  · exact h2
  · cases h1

/-- In the populated registry, the `brgemm` class is associated exactly
with `brgemmConfigs`. -/
theorem brgemm_assoc {configs : List CppMicroGemmConfig}
    (h : (GemmVariant.brgemm, configs) ∈ micro_gemm_configs) :
    configs = brgemmConfigs := by
  simp only [micro_gemm_configs, List.mem_cons, Prod.mk.injEq,
    List.not_mem_nil, or_false] at h
  rcases h with ⟨h1, _⟩ | ⟨h1, _⟩ | ⟨h1, _⟩ | ⟨_, h2⟩
  · cases h1
  · cases h1
  · cases h1
  · exact h2

/-- C1: for every selection request, if no registered (class,
configuration) pair survives filtering, `create_micro_gemm` returns a
Reference variant instance when `use_ref = True` — so in that mode the
result is never `None` — and returns `None` when `use_ref = False`. -/
theorem create_micro_gemm_ref_fallback (host : Host) (name : String)
    (m n k : Nat) (input_dtype input2_dtype : DType)
    (output_dtype0 compute_dtype0 : Option DType) (alpha : Int)
    (num_threads0 : Int)
    (h : matched_configs_in micro_gemm_configs host m n k input_dtype
      input2_dtype
      (resolved_dtypes host m n input_dtype input2_dtype output_dtype0
        compute_dtype0).1
      (resolved_dtypes host m n input_dtype input2_dtype output_dtype0
        compute_dtype0).2
      alpha (resolved_num_threads host num_threads0) = []) :
    create_micro_gemm host name m n k input_dtype input2_dtype output_dtype0
        compute_dtype0 alpha num_threads0 true =
      some (refInstance name input_dtype input2_dtype
        (resolved_dtypes host m n input_dtype input2_dtype output_dtype0
          compute_dtype0).1
        (resolved_dtypes host m n input_dtype input2_dtype output_dtype0
          compute_dtype0).2 alpha) ∧
    (refInstance name input_dtype input2_dtype
      (resolved_dtypes host m n input_dtype input2_dtype output_dtype0
        compute_dtype0).1
      (resolved_dtypes host m n input_dtype input2_dtype output_dtype0
        compute_dtype0).2 alpha).variant = GemmVariant.ref ∧
    create_micro_gemm host name m n k input_dtype input2_dtype output_dtype0
        compute_dtype0 alpha num_threads0 false = none := by
  simp [create_micro_gemm, selected_config, refInstance, h]

/-- Witness for C1: a float64 request matches no registered
configuration; the reference variant (resp. `None`) is returned. -/
theorem create_micro_gemm_ref_fallback_witness :
    create_micro_gemm ⟨.amx, false, false, 4⟩ "k1" 3 5 7 .float64 .float64
        none none 1 4 true =
      some (refInstance "k1" .float64 .float64
        (resolved_dtypes ⟨.amx, false, false, 4⟩ 3 5 .float64 .float64
          none none).1
        (resolved_dtypes ⟨.amx, false, false, 4⟩ 3 5 .float64 .float64
          none none).2 1) ∧
    (refInstance "k1" .float64 .float64
      (resolved_dtypes ⟨.amx, false, false, 4⟩ 3 5 .float64 .float64
        none none).1
      (resolved_dtypes ⟨.amx, false, false, 4⟩ 3 5 .float64 .float64
        none none).2 1).variant = GemmVariant.ref ∧
    create_micro_gemm ⟨.amx, false, false, 4⟩ "k1" 3 5 7 .float64 .float64
        none none 1 4 false = none :=
  create_micro_gemm_ref_fallback ⟨.amx, false, false, 4⟩ "k1" 3 5 7
    .float64 .float64 none none 1 4 (by decide)

/-- C8: registering an already-present variant class fails the duplicate
assertion, registering an empty configuration list fails the non-empty
assertion, and otherwise registration succeeds by appending. -/
theorem register_micro_gemm_asserts (registry : Registry)
    (cls : GemmVariant) (configs : List CppMicroGemmConfig) :
    ((registry.map Prod.fst).contains cls = true →
      register_micro_gemm registry cls configs =
        .error "Duplicate micro_gemm registration") ∧
    ((registry.map Prod.fst).contains cls = false → configs = [] →
      register_micro_gemm registry cls configs =
        .error "No micro_gemm configs provided") ∧
    ((registry.map Prod.fst).contains cls = false → configs ≠ [] →
      register_micro_gemm registry cls configs =
        .ok (registry ++ [(cls, configs)])) := by
  refine ⟨?_, ?_, ?_⟩
  · intro hdup
    unfold register_micro_gemm
    rw [if_pos hdup]
  · intro hdup hnil
    unfold register_micro_gemm
    rw [if_neg (by simp only [hdup]; exact Bool.false_ne_true),
      if_pos (by simp [hnil])]
  · intro hdup hne
    unfold register_micro_gemm
    rw [if_neg (by simp only [hdup]; exact Bool.false_ne_true),
      if_neg (by simp [List.length_eq_zero, hne])]

/-- Witness for C8: re-registering the FP32 vector class fails, an
empty registration fails, and a fresh non-empty registration succeeds. -/
theorem register_micro_gemm_asserts_witness :
    register_micro_gemm micro_gemm_configs .fp32Vec fp16Configs =
      .error "Duplicate micro_gemm registration" ∧
    register_micro_gemm [] .ref [] =
      .error "No micro_gemm configs provided" ∧
    register_micro_gemm [] .ref fp16Configs =
      .ok ([] ++ [(.ref, fp16Configs)]) :=
  ⟨(register_micro_gemm_asserts micro_gemm_configs .fp32Vec fp16Configs).1
      (by decide),
   (register_micro_gemm_asserts [] .ref []).2.1 (by decide) rfl,
   (register_micro_gemm_asserts [] .ref fp16Configs).2.2 (by decide)
      (by decide)⟩

/-- C9: `create_micro_gemm` is deterministic — two calls with identical
host state (registry contents are a fixed global) and identical
arguments return identical results. -/
theorem create_micro_gemm_deterministic (h1 h2 : Host)
    (name1 name2 : String) (m1 m2 n1 n2 k1 k2 : Nat)
    (idt1 idt2 i2dt1 i2dt2 : DType) (odt1 odt2 cdt1 cdt2 : Option DType)
    (a1 a2 t1 t2 : Int) (u1 u2 : Bool)
    (hh : h1 = h2) (hname : name1 = name2) (hm : m1 = m2) (hn : n1 = n2)
    (hk : k1 = k2) (hi : idt1 = idt2) (hi2 : i2dt1 = i2dt2)
    (ho : odt1 = odt2) (hc : cdt1 = cdt2) (ha : a1 = a2) (ht : t1 = t2)
    (hu : u1 = u2) :
    create_micro_gemm h1 name1 m1 n1 k1 idt1 i2dt1 odt1 cdt1 a1 t1 u1 =
    create_micro_gemm h2 name2 m2 n2 k2 idt2 i2dt2 odt2 cdt2 a2 t2 u2 := by
  subst hh hname hm hn hk hi hi2 ho hc ha ht hu
  rfl

/-- Witness for C9 at a concrete request. -/
theorem create_micro_gemm_deterministic_witness :
    create_micro_gemm ⟨.amx, false, false, 4⟩ "k0" 256 256 256 .bfloat16
        .bfloat16 none none 1 4 true =
    create_micro_gemm ⟨.amx, false, false, 4⟩ "k0" 256 256 256 .bfloat16
        .bfloat16 none none 1 4 true :=
  create_micro_gemm_deterministic ⟨.amx, false, false, 4⟩
    ⟨.amx, false, false, 4⟩ "k0" "k0" 256 256 256 256 256 256 .bfloat16
    .bfloat16 .bfloat16 .bfloat16 none none none none 1 1 4 4 true true
    rfl rfl rfl rfl rfl rfl rfl rfl rfl rfl rfl rfl

/-- C10: for a uint8-input kernel instance, rendering the common
template options succeeds exactly when `compute_dtype = int32`,
`output_dtype = int32` and `input2_dtype = int8`; any other dtype
combination fails an assertion. -/
theorem get_common_options_uint8_asserts (inst : MicroGemmInstance)
    (h : inst.input_dtype = .uint8) :
    (∃ o, get_common_options inst = Except.ok o) ↔
      (inst.compute_dtype = .int32 ∧ inst.output_dtype = .int32 ∧
       inst.input2_dtype = .int8) := by
  unfold get_common_options
  rw [if_pos h]
  by_cases h1 : inst.compute_dtype = .int32
  · rw [if_pos h1]
    by_cases h2 : inst.output_dtype = .int32
    · rw [if_pos h2]
      by_cases h3 : inst.input2_dtype = .int8
      · rw [if_pos h3]
        exact ⟨fun _ => ⟨h1, h2, h3⟩, fun _ => ⟨commonOptions inst, rfl⟩⟩
      · rw [if_neg h3]
        exact ⟨fun ⟨o, ho⟩ => Except.noConfusion ho,
          fun hcon => absurd hcon.2.2 h3⟩
    · rw [if_neg h2]
      exact ⟨fun ⟨o, ho⟩ => Except.noConfusion ho,
        fun hcon => absurd hcon.2.1 h2⟩
  · rw [if_neg h1]
    exact ⟨fun ⟨o, ho⟩ => Except.noConfusion ho,
      fun hcon => absurd hcon.1 h1⟩

/-- Witness for C10 at a concrete uint8-input instance. -/
theorem get_common_options_uint8_asserts_witness :
    (∃ o, get_common_options
        ⟨.amx, "q", .uint8, .int8, .int32, .int32, ⟨32, 32, 64⟩, 1⟩ =
      Except.ok o) ↔
      ((MicroGemmInstance.mk .amx "q" .uint8 .int8 .int32 .int32
          ⟨32, 32, 64⟩ 1).compute_dtype = .int32 ∧
       (MicroGemmInstance.mk .amx "q" .uint8 .int8 .int32 .int32
          ⟨32, 32, 64⟩ 1).output_dtype = .int32 ∧
       (MicroGemmInstance.mk .amx "q" .uint8 .int8 .int32 .int32
          ⟨32, 32, 64⟩ 1).input2_dtype = .int8) :=
  get_common_options_uint8_asserts
    ⟨.amx, "q", .uint8, .int8, .int32, .int32, ⟨32, 32, 64⟩, 1⟩ rfl

/-- C2: every surviving candidate carries the claimed 4-tuple score
`(isa_score, dividable_score, occupancy_score, register_bytes)`; the
winner is a lexicographic maximum of these tuples; and every candidate
registered before the winner scores strictly below it, so ties resolve
in favor of the first-registered candidate. -/
theorem create_micro_gemm_ranking (host : Host) (m n k : Nat)
    (idt i2dt odt cdt : DType) (alpha : Int) (nt : Nat) (w : MatchedConfig)
    (h : selected_config host m n k idt i2dt odt cdt alpha nt = some w) :
    (∀ c ∈ matched_configs_in micro_gemm_configs host m n k idt i2dt odt cdt
        alpha nt,
      c.score = claim_ranking_score m n k nt c.config ∧
      ¬ scoreLt w.score c.score) ∧
    ∃ pre post,
      matched_configs_in micro_gemm_configs host m n k idt i2dt odt cdt
          alpha nt = pre ++ w :: post ∧
      ∀ c ∈ pre, scoreLt c.score w.score := by
  obtain ⟨hmem, hmax, hsplit⟩ := selected_config_spec h
  refine ⟨?_, hsplit⟩
  intro c hc
  obtain ⟨configs, -, -, -, hscore⟩ := matched_configs_in_sound hc
  exact ⟨by rw [hscore]; rfl, hmax c hc⟩

/-- Witness for C2: the AMX bfloat16 (32,32,32) candidate wins for a
256-cube bfloat16 request on an AMX host with 4 threads. -/
theorem create_micro_gemm_ranking_witness :
    (∀ c ∈ matched_configs_in micro_gemm_configs ⟨.amx, false, false, 4⟩
        256 256 256 .bfloat16 .bfloat16 .float32 .float32 1 4,
      c.score = claim_ranking_score 256 256 256 4 c.config ∧
      ¬ scoreLt (MatchedConfig.mk (1, 3, 2, 8192) .amx
          ⟨.bfloat16, .bfloat16, .float32, .float32, .vecAMX,
            ⟨32, 32, 32⟩, some .amxExtra⟩).score c.score) ∧
    ∃ pre post,
      matched_configs_in micro_gemm_configs ⟨.amx, false, false, 4⟩
          256 256 256 .bfloat16 .bfloat16 .float32 .float32 1 4 =
        pre ++ (MatchedConfig.mk (1, 3, 2, 8192) .amx
          ⟨.bfloat16, .bfloat16, .float32, .float32, .vecAMX,
            ⟨32, 32, 32⟩, some .amxExtra⟩) :: post ∧
      ∀ c ∈ pre, scoreLt c.score
        (MatchedConfig.mk (1, 3, 2, 8192) .amx
          ⟨.bfloat16, .bfloat16, .float32, .float32, .vecAMX,
            ⟨32, 32, 32⟩, some .amxExtra⟩).score :=
  create_micro_gemm_ranking ⟨.amx, false, false, 4⟩ 256 256 256 .bfloat16
    .bfloat16 .float32 .float32 1 4
    ⟨(1, 3, 2, 8192), .amx,
      ⟨.bfloat16, .bfloat16, .float32, .float32, .vecAMX,
        ⟨32, 32, 32⟩, some .amxExtra⟩⟩ (by decide)

/-- C3: if a vectorized candidate and an AMX candidate both survive
filtering, the selected winner is an AMX-ISA configuration: the
`isa_score` component dominates the lexicographic ranking. -/
theorem amx_isa_preferred (host : Host) (m n k : Nat)
    (idt i2dt odt cdt : DType) (alpha : Int) (nt : Nat)
    (cv ca : MatchedConfig)
    (hv : cv ∈ matched_configs_in micro_gemm_configs host m n k idt i2dt odt
        cdt alpha nt)
    (hvIsa : cv.config.vec_isa_cls = .vecAVX2 ∨
      cv.config.vec_isa_cls = .vecAVX512)
    (ha : ca ∈ matched_configs_in micro_gemm_configs host m n k idt i2dt odt
        cdt alpha nt)
    (haIsa : ca.config.vec_isa_cls = .vecAMX) :
    ∃ w, selected_config host m n k idt i2dt odt cdt alpha nt = some w ∧
      w.config.vec_isa_cls = .vecAMX := by
  cases hm : matched_configs_in micro_gemm_configs host m n k idt i2dt odt
      cdt alpha nt with
  | nil => rw [hm] at ha; cases ha
  | cons x xs =>
    have hsel : selected_config host m n k idt i2dt odt cdt alpha nt =
        some (pyMaxBy MatchedConfig.score x xs) := by
      unfold selected_config
      rw [hm]
    refine ⟨pyMaxBy MatchedConfig.score x xs, hsel, ?_⟩
    obtain ⟨hwmem, hwmax, -⟩ := selected_config_spec hsel
    obtain ⟨-, -, -, -, hascore⟩ := matched_configs_in_sound ha
    obtain ⟨-, -, -, -, hwscore⟩ := matched_configs_in_sound hwmem
    have ha1 : ca.score.1 = 1 := by
      rw [hascore]
      simp [scoreConfig, haIsa]
    by_contra hne
    have hw1 : (pyMaxBy MatchedConfig.score x xs).score.1 = 0 := by
      rw [hwscore]
      simp [scoreConfig, hne]
    refine hwmax ca ha ?_
    unfold scoreLt
    left
    rw [hw1, ha1]
    exact Nat.zero_lt_one

/-- Witness for C3: for a 256-cube bfloat16 request on an AMX host both
an AVX512 candidate and an AMX candidate survive, and the winner is an
AMX configuration. -/
theorem amx_isa_preferred_witness :
    ∃ w, selected_config ⟨.amx, false, false, 4⟩ 256 256 256 .bfloat16
        .bfloat16 .float32 .float32 1 4 = some w ∧
      w.config.vec_isa_cls = .vecAMX :=
  amx_isa_preferred ⟨.amx, false, false, 4⟩ 256 256 256 .bfloat16 .bfloat16
    .float32 .float32 1 4
    ⟨(0, 2, 2, 1648), .fp32Vec,
      ⟨.bfloat16, .bfloat16, .float32, .float32, .vecAVX512,
        ⟨8, 48, 1⟩, none⟩⟩
    ⟨(1, 3, 2, 8192), .amx,
      ⟨.bfloat16, .bfloat16, .float32, .float32, .vecAMX,
        ⟨32, 32, 32⟩, some .amxExtra⟩⟩
    (by decide) (Or.inr rfl) (by decide) rfl

/-- C4: for bfloat16 input with int8 secondary input,
`create_micro_gemm` never selects an AMX-class configuration whose
`block_m` exceeds `m`: such configurations are skipped during
filtering. -/
theorem amx_small_m_exclusion (host : Host) (name : String) (m n k : Nat)
    (output_dtype0 compute_dtype0 : Option DType) (alpha : Int)
    (num_threads0 : Int) (use_ref : Bool) (r : MicroGemmInstance)
    (h : create_micro_gemm host name m n k .bfloat16 .int8 output_dtype0
      compute_dtype0 alpha num_threads0 use_ref = some r)
    (hv : r.variant = .amx) :
    r.register_blocking.block_m ≤ m := by
  simp only [create_micro_gemm] at h
  cases hsel : selected_config host m n k .bfloat16 .int8
      (resolved_dtypes host m n .bfloat16 .int8 output_dtype0
        compute_dtype0).1
      (resolved_dtypes host m n .bfloat16 .int8 output_dtype0
        compute_dtype0).2 alpha (resolved_num_threads host num_threads0) with
  | none =>
    rw [hsel] at h
    cases use_ref with
    | true =>
      simp only [if_pos, Option.some.injEq] at h
      rw [← h] at hv
      cases hv
    | false =>
      simp at h
  | some w =>
    rw [hsel] at h
    simp only [Option.some.injEq] at h
    obtain ⟨configs, hreg, hcfg, hmatch, -⟩ :=
      matched_configs_in_sound (selected_config_spec hsel).1
    have hcls : w.cls = GemmVariant.amx := by
      rw [← h] at hv
      exact hv
    rw [hcls] at hreg
    rw [amx_assoc hreg] at hcfg
    have hisa := amxConfigs_vec_isa w.config hcfg
    obtain ⟨-, -, -, -, -, -, hskip⟩ := configMatches_spec hmatch
    have hble : ¬ m < w.config.register_blocking.block_m := fun hlt =>
      hskip ⟨hisa, hlt, rfl, rfl⟩
    have hr : r.register_blocking = w.config.register_blocking := by
      rw [← h]
      rfl
    rw [hr]
    omega

/-- Witness for C4: a concrete bfloat16/int8 request that selects an
AMX configuration has `block_m ≤ m`. -/
theorem amx_small_m_exclusion_witness :
    (MicroGemmInstance.mk .amx "c4" .bfloat16 .int8 .float32 .float32
      ⟨32, 32, 32⟩ 1).register_blocking.block_m ≤ 32 :=
  amx_small_m_exclusion ⟨.amx, false, false, 4⟩ "c4" 32 32 32
    (some .float32) (some .float32) 1 4 true
    ⟨.amx, "c4", .bfloat16, .int8, .float32, .float32, ⟨32, 32, 32⟩, 1⟩
    rfl rfl

/-- C5: for `m ≤ 4`, bfloat16 input, int8 secondary input, AVX512-FP16
host support and `n` a multiple of 32, the requested output and compute
dtypes are forced to float16 before matching, so any returned variant
carries float16 output and compute dtypes. -/
theorem fp16_dtype_upgrade (host : Host) (name : String) (m n k : Nat)
    (output_dtype0 compute_dtype0 : Option DType) (alpha : Int)
    (num_threads0 : Int) (use_ref : Bool)
    (hm : m ≤ 4) (hfp16 : host.avx512_fp16_supported = true)
    (hn : n % 32 = 0) (r : MicroGemmInstance)
    (h : create_micro_gemm host name m n k .bfloat16 .int8 output_dtype0
      compute_dtype0 alpha num_threads0 use_ref = some r) :
    r.output_dtype = .float16 ∧ r.compute_dtype = .float16 := by
  have hres : resolved_dtypes host m n .bfloat16 .int8 output_dtype0
      compute_dtype0 = (.float16, .float16) := by
    unfold resolved_dtypes
    rw [if_pos ⟨hm, rfl, rfl, hfp16, hn⟩]
  simp only [create_micro_gemm, hres] at h
  cases hsel : selected_config host m n k .bfloat16 .int8 .float16 .float16
      alpha (resolved_num_threads host num_threads0) with
  | none =>
    rw [hsel] at h
    cases use_ref with
    | true =>
      simp only [if_pos, Option.some.injEq] at h
      rw [← h]
      exact ⟨rfl, rfl⟩
    | false =>
      simp at h
  | some w =>
    rw [hsel] at h
    simp only [Option.some.injEq] at h
    obtain ⟨configs, -, -, hmatch, -⟩ :=
      matched_configs_in_sound (selected_config_spec hsel).1
    obtain ⟨-, -, hcomp, -, hout, -, -⟩ := configMatches_spec hmatch
    rw [← h]
    exact ⟨hout, hcomp⟩

/-- Witness for C5: the scenario `m = 2, n = 64, k = 128` with bfloat16
activations and int8 weights on an AVX512-FP16 host returns a variant
with float16 output and compute dtypes. -/
theorem fp16_dtype_upgrade_witness :
    (MicroGemmInstance.mk .fp16 "k2" .bfloat16 .int8 .float16 .float16
      ⟨8, 64, 1⟩ 1).output_dtype = .float16 ∧
    (MicroGemmInstance.mk .fp16 "k2" .bfloat16 .int8 .float16 .float16
      ⟨8, 64, 1⟩ 1).compute_dtype = .float16 :=
  fp16_dtype_upgrade ⟨.avx512, true, false, 4⟩ "k2" 2 64 128 none none 1 4
    true (by decide) rfl (by decide)
    ⟨.fp16, "k2", .bfloat16, .int8, .float16, .float16, ⟨8, 64, 1⟩, 1⟩ rfl

/-- C6: every AMX-class configuration that the selector can return has
`block_m` and `block_n` multiples of 16 and `block_k` equal to 64 for
uint8 input and 32 otherwise; and the `codegen_define` assertion
prelude accepts a blocking exactly when these constraints hold, failing
an assertion otherwise. -/
theorem amx_blocking_invariants :
    (∀ (host : Host) (m n k : Nat) (idt i2dt odt cdt : DType) (alpha : Int)
       (nt : Nat) (w : MatchedConfig),
      selected_config host m n k idt i2dt odt cdt alpha nt = some w →
      w.cls = .amx →
      w.config.register_blocking.block_m % 16 = 0 ∧
      w.config.register_blocking.block_n % 16 = 0 ∧
      w.config.register_blocking.block_k =
        (if w.config.input_dtype = .uint8 then 64 else 32)) ∧
    (∀ (input_dtype : DType) (rb : GemmBlocking),
      amx_codegen_define_asserts input_dtype rb = Except.ok () ↔
      (rb.block_m % 16 = 0 ∧ rb.block_n % 16 = 0 ∧
       rb.block_k = (if input_dtype = .uint8 then 64 else 32))) := by
  constructor
  · intro host m n k idt i2dt odt cdt alpha nt w hsel hcls
    obtain ⟨configs, hreg, hcfg, -, -⟩ :=
      matched_configs_in_sound (selected_config_spec hsel).1
    rw [hcls] at hreg
    rw [amx_assoc hreg] at hcfg
    exact amxConfigs_blocking w.config hcfg
  · intro input_dtype rb
    unfold amx_codegen_define_asserts
    by_cases h1 : rb.block_m % 16 = 0
    · rw [if_pos h1]
      by_cases h2 : rb.block_n % 16 = 0
      · rw [if_pos h2]
        by_cases h3 : input_dtype = .uint8
        · rw [if_pos h3, if_pos h3]
          by_cases h4 : rb.block_k = 64
          · rw [if_pos h4]
            exact ⟨fun _ => ⟨h1, h2, h4⟩, fun _ => rfl⟩
          · rw [if_neg h4]
            exact ⟨fun he => Except.noConfusion he,
              fun hcon => absurd hcon.2.2 h4⟩
        · rw [if_neg h3, if_neg h3]
          by_cases h4 : rb.block_k = 32
          · rw [if_pos h4]
            exact ⟨fun _ => ⟨h1, h2, h4⟩, fun _ => rfl⟩
          · rw [if_neg h4]
            exact ⟨fun he => Except.noConfusion he,
              fun hcon => absurd hcon.2.2 h4⟩
      · rw [if_neg h2]
        exact ⟨fun he => Except.noConfusion he,
          fun hcon => absurd hcon.2.1 h2⟩
    · rw [if_neg h1]
      exact ⟨fun he => Except.noConfusion he,
        fun hcon => absurd hcon.1 h1⟩

/-- Witness for C6: the winning AMX configuration of a 256-cube
bfloat16 request satisfies the blocking invariants, and the assertion
prelude accepts the uint8 blocking (32, 32, 64). -/
theorem amx_blocking_invariants_witness :
    ((MatchedConfig.mk (1, 3, 2, 8192) .amx
        ⟨.bfloat16, .bfloat16, .float32, .float32, .vecAMX,
          ⟨32, 32, 32⟩, some .amxExtra⟩).config.register_blocking.block_m %
        16 = 0 ∧
     (MatchedConfig.mk (1, 3, 2, 8192) .amx
        ⟨.bfloat16, .bfloat16, .float32, .float32, .vecAMX,
          ⟨32, 32, 32⟩, some .amxExtra⟩).config.register_blocking.block_n %
        16 = 0 ∧
     (MatchedConfig.mk (1, 3, 2, 8192) .amx
        ⟨.bfloat16, .bfloat16, .float32, .float32, .vecAMX,
          ⟨32, 32, 32⟩, some .amxExtra⟩).config.register_blocking.block_k =
       (if (MatchedConfig.mk (1, 3, 2, 8192) .amx
          ⟨.bfloat16, .bfloat16, .float32, .float32, .vecAMX,
            ⟨32, 32, 32⟩, some .amxExtra⟩).config.input_dtype = .uint8
        then 64 else 32)) ∧
    (amx_codegen_define_asserts .uint8 ⟨32, 32, 64⟩ = Except.ok () ↔
      ((32 : Nat) % 16 = 0 ∧ (32 : Nat) % 16 = 0 ∧
       (64 : Nat) = (if DType.uint8 = DType.uint8 then 64 else 32))) :=
  ⟨amx_blocking_invariants.1 ⟨.amx, false, false, 4⟩ 256 256 256 .bfloat16
      .bfloat16 .float32 .float32 1 4
      ⟨(1, 3, 2, 8192), .amx,
        ⟨.bfloat16, .bfloat16, .float32, .float32, .vecAMX,
          ⟨32, 32, 32⟩, some .amxExtra⟩⟩ (by decide) rfl,
   amx_blocking_invariants.2 .uint8 ⟨32, 32, 64⟩⟩

/-- C7 counterexample: on an AMX host with AMX-FP16 support, a request
with float16 (half) input and FLOAT32 output returns the Brgemm
variant, whose output dtype is float32, not half — so Brgemm is
selected without a half-precision output dtype, contrary to the
claim. -/
theorem brgemm_output_dtype_counterexample :
    (create_micro_gemm ⟨.amx, false, true, 4⟩ "kb" 256 256 256 .float16
        .float16 (some .float32) none 1 4 true).map
      (fun r => (r.variant, r.output_dtype)) =
      some (GemmVariant.brgemm, DType.float32) ∧
    DType.float32 ≠ DType.float16 := ⟨rfl, by decide⟩

/-- C7 (amended): the Brgemm variant is selected only for half-precision
input and secondary input with FLOAT32 output and compute dtypes, and
only when the host supports AMX-FP16, `k` is even and `alpha = 1`. -/
theorem brgemm_eligibility_conditions (host : Host) (m n k : Nat)
    (idt i2dt odt cdt : DType) (alpha : Int) (nt : Nat) (w : MatchedConfig)
    (h : selected_config host m n k idt i2dt odt cdt alpha nt = some w)
    (hb : w.cls = .brgemm) :
    idt = .float16 ∧ i2dt = .float16 ∧ odt = .float32 ∧ cdt = .float32 ∧
    host.amx_fp16_supported = true ∧ k % 2 = 0 ∧ alpha = 1 := by
  obtain ⟨configs, hreg, hcfg, hmatch, -⟩ :=
    matched_configs_in_sound (selected_config_spec h).1
  rw [hb] at hreg
  rw [brgemm_assoc hreg] at hcfg
  obtain ⟨hf1, hf2, hf3, hf4, hf5⟩ := brgemmConfigs_fields w.config hcfg
  obtain ⟨-, hin, hcomp, hin2, hout, hextra, -⟩ := configMatches_spec hmatch
  have hev := hextra .brgemmExtra hf5
  unfold evalExtraCheck check_brgemm_extra at hev
  rw [if_pos ⟨hf1, hf3⟩] at hev
  simp only [Bool.and_eq_true, decide_eq_true_eq] at hev
  exact ⟨by rw [← hin, hf1], by rw [← hin2, hf2], by rw [← hout, hf3],
    by rw [← hcomp, hf4], hev.1.1, hev.1.2, hev.2⟩

/-- Witness for the amended C7: a concrete selection returning Brgemm
satisfies all the eligibility conditions. -/
theorem brgemm_eligibility_conditions_witness :
    DType.float16 = DType.float16 ∧ DType.float16 = DType.float16 ∧
    DType.float32 = DType.float32 ∧ DType.float32 = DType.float32 ∧
    (Host.mk .amx false true 4).amx_fp16_supported = true ∧
    (256 : Nat) % 2 = 0 ∧ (1 : Int) = 1 :=
  brgemm_eligibility_conditions ⟨.amx, false, true, 4⟩ 256 256 256 .float16
    .float16 .float32 .float32 1 4
    ⟨(1, 3, 2, 8192), .brgemm,
      ⟨.float16, .float16, .float32, .float32, .vecAMX,
        ⟨32, 32, 32⟩, some .brgemmExtra⟩⟩ (by decide) rfl

end CppGemm
